import Mathlib

/-!
Shallow embedding of the redis-python repository (src/app), used to check the
natural-language specification against the code.

Conventions of the embedding:
* a Python byte string is `Bytes := List Nat` (one `Nat` per byte);
* the float clock `time.monotonic()` is modelled by rationals `ℚ`; every
  distinct call of `time.monotonic()` inside one Store operation is a separate
  explicit parameter (`s1`, `s2`, `s3`, in source order), since the samples can
  differ;
* the `dict` store is an association list with unique keys (`dbInsert`
  replaces); Python dict iteration order is not observed by any claim;
* Python exceptions are explicit values of `PyExn`; an uncaught exception at
  handler level is the `Outcome.exn` constructor (the connection is torn down);
* the per-key `asyncio.Lock` discipline is modelled separately as the sequence
  of lock acquire/release actions each operation performs (`LockOp`), with the
  semantics of non-reentrant locks executed by a single task (`runLocks`).
  The Store functions below are the data-level meaning of the code, i.e. what
  each operation computes on the entries, read off line by line from
  `InMemoryDB`.
-/

namespace RedisPy

abbrev Bytes := List Nat

/-- ASCII bytes of a string literal (for command-name constants). -/
def strBytes (s : String) : Bytes := s.toList.map Char.toNat

/-- A stored value: either a scalar byte string or a deque of byte strings,
mirroring `Union[bytes, Deque[bytes]]` in `server.py`. -/
inductive Value
  | scalar (s : Bytes)
  | list (items : List Bytes)
deriving DecidableEq, Repr

/-- One entry of `InMemoryDB.db`: the value with its optional absolute expiry
timestamp on the monotonic clock. -/
abbrev Entry := Value × Option ℚ

/-- `InMemoryDB.db`, a Python dict, as an association list with unique keys. -/
abbrev Db := List (Bytes × Entry)

/-- Python `self.db.get(key)`. -/
def dbGet (db : Db) (k : Bytes) : Option Entry :=
  (db.find? (fun p => p.1 == k)).map (·.2)

/-- Python `self.db.pop(key, None)` / `del self.db[key]`. -/
def dbDelete (db : Db) (k : Bytes) : Db :=
  db.filter (fun p => !(p.1 == k))

/-- Python `self.db[key] = entry` (replace or create). -/
def dbInsert (db : Db) (k : Bytes) (e : Entry) : Db :=
  (k, e) :: dbDelete db k

/-- The Python exceptions that the handlers/Store code can raise. -/
inductive PyExn
  | indexError
  | valueError
  | typeError
  | unboundLocalError
deriving DecidableEq, Repr

instance {ε α : Type} [DecidableEq ε] [DecidableEq α] : DecidableEq (Except ε α) := fun x y =>
  match x, y with
  | .ok a, .ok b =>
      if h : a = b then .isTrue (by rw [h]) else .isFalse (fun hc => h (Except.ok.inj hc))
  | .error a, .error b =>
      if h : a = b then .isTrue (by rw [h]) else .isFalse (fun hc => h (Except.error.inj hc))
  | .ok _, .error _ => .isFalse (fun hc => Except.noConfusion hc)
  | .error _, .ok _ => .isFalse (fun hc => Except.noConfusion hc)

/-- Python builtin `max(a, b)`: keeps the later argument only when it is
strictly greater. -/
def pyMax {α : Type} [LT α] [DecidableRel (α := α) (· < ·)] (a b : α) : α :=
  if a < b then b else a

/-- Python builtin `min(a, b)`. -/
def pyMin {α : Type} [LT α] [DecidableRel (α := α) (· < ·)] (a b : α) : α :=
  if b < a then b else a

/-- The liveness test `expiry is None or expiry > time.monotonic()`
from `InMemoryDB.get_` (server.py line 136). -/
def liveB : Option ℚ → ℚ → Bool
  | none, _ => true
  | some t, now => decide (now < t)

/-- `InMemoryDB.get_` (server.py 129-139): returns the entry if absent-or-live
check passes, else deletes the expired entry (side effect) and returns `None`.
`now` is the `time.monotonic()` sample of line 136. -/
def get_ (now : ℚ) (db : Db) (k : Bytes) : Option Entry × Db :=
  match dbGet db k with
  | none => (none, db)
  | some (v, e) => if liveB e now then (some (v, e), db) else (none, dbDelete db k)

/-- The expiry computation of `InMemoryDB.set_` (line 121):
`expiry_time = time.monotonic() + expire if expire else None`.
Note Python truthiness: `expire == 0.0` is falsy, giving `None`. -/
def mkExpiry (now : ℚ) : Option ℚ → Option ℚ
  | none => none
  | some e => if e = 0 then none else some (now + e)

/-- `InMemoryDB.set_` (111-122): unconditionally stores the value with the
expiry computed from the relative `expire` argument at sample `now`. -/
def set_ (now : ℚ) (db : Db) (k : Bytes) (v : Value) (expire : Option ℚ) : Db :=
  dbInsert db k (v, mkExpiry now expire)

/-- `InMemoryDB.delete` (124-127). -/
def delete (db : Db) (k : Bytes) : Db := dbDelete db k

/-- The re-set expiry argument used by `rpush`/`lpush`/`lpop`
(lines 150, 182, 209): `max(expiry - time.monotonic(), 0) if expiry else None`,
where `now` is the fresh `time.monotonic()` sample at that line.
Python truthiness again: an absolute expiry of exactly `0.0` is falsy. -/
def remainingTTL : Option ℚ → ℚ → Option ℚ
  | none, _ => none
  | some t, now => if t = 0 then none else some (pyMax (t - now) 0)

/-- `InMemoryDB.rpush` (141-151), data level. `s1` is the clock sample inside
the nested `get_`, `s2` the sample in the `max(expiry - time.monotonic(), 0)`
argument on line 150, `s3` the sample inside the nested `set_`. On a
scalar-typed live entry it raises `ValueError` and changes nothing. -/
def rpush (s1 s2 s3 : ℚ) (db : Db) (k : Bytes) (values : List Bytes) :
    Except PyExn Nat × Db :=
  match get_ s1 db k with
  | (some (.scalar _, _), db1) => (.error .valueError, db1)
  | (some (.list l, e), db1) =>
      let newl := l ++ values
      (.ok newl.length, set_ s3 db1 k (.list newl) (remainingTTL e s2))
  | (none, db1) =>
      (.ok values.length, set_ s3 db1 k (.list values) none)

/-- `InMemoryDB.lpush` (173-183), data level. The function body assigns the
name `deque` on line 179, which makes `deque` a local variable throughout the
body; hence `isinstance(current[0], deque)` on line 177 (taken when the key is
present) and the fallback `deque([])` on line 179 (taken when it is absent)
both read the local name before it is ever assigned, so every call raises
`UnboundLocalError`. Only the side effect of the nested `get_` (deleting an
expired entry) survives. -/
def lpush (s1 : ℚ) (db : Db) (k : Bytes) (_values : List Bytes) :
    Except PyExn Nat × Db :=
  match get_ s1 db k with
  | (some _, db1) => (.error .unboundLocalError, db1)
  | (none, db1) => (.error .unboundLocalError, db1)

/-- Python `itertools.islice(l, a, b)` materialised as a list. -/
def islicePy (l : List Bytes) (a b : Nat) : List Bytes := (l.take b).drop a

/-- `InMemoryDB.lrange` (153-171), data level: normalise negative indices,
return `[]` when `start > end` after normalisation, else the inclusive slice
via `islice(value, start, end + 1)`. -/
def lrange (s1 : ℚ) (db : Db) (k : Bytes) (start stop : Int) :
    Except PyExn (List Bytes) × Db :=
  match get_ s1 db k with
  | (none, db1) => (.ok [], db1)
  | (some (.scalar _, _), db1) => (.error .valueError, db1)
  | (some (.list l, _), db1) =>
      let L : Int := (l.length : Int)
      let start1 : Int := if start < 0 then pyMax (start + L) 0 else start
      let stop1 : Int := if stop < 0 then pyMin (stop + L) (L - 1) else stop
      if start1 > stop1 then (.ok [], db1)
      else (.ok (islicePy l start1.toNat (stop1.toNat + 1)), db1)

/-- `InMemoryDB.llen` (185-193), data level. -/
def llen (s1 : ℚ) (db : Db) (k : Bytes) : Except PyExn Nat × Db :=
  match get_ s1 db k with
  | (none, db1) => (.ok 0, db1)
  | (some (.scalar _, _), db1) => (.error .valueError, db1)
  | (some (.list l, _), db1) => (.ok l.length, db1)

/-- `InMemoryDB.lpop` (195-212), data level. Note line 204-205: on a
zero-length deque it returns `None` and RETAINS the entry; on popping the last
element it deletes the key; otherwise it re-sets the shrunk deque with the
re-anchored expiry (samples `s2` for the `max(expiry - now, 0)` argument and
`s3` inside the nested `set_`). -/
def lpop (s1 s2 s3 : ℚ) (db : Db) (k : Bytes) :
    Except PyExn (Option Bytes) × Db :=
  match get_ s1 db k with
  | (none, db1) => (.ok none, db1)
  | (some (.scalar _, _), db1) => (.error .valueError, db1)
  | (some (.list [], _), db1) => (.ok none, db1)
  | (some (.list (h :: t), e), db1) =>
      if t.isEmpty then (.ok (some h), dbDelete db1 k)
      else (.ok (some h), set_ s3 db1 k (.list t) (remainingTTL e s2))

/-! ### Python numeric literal parsing (`int(...)`, `float(...)`) -/

/-- ASCII whitespace bytes stripped by Python `bytes.strip()`. -/
def isWSb (b : Nat) : Bool := b = 32 || b = 9 || b = 10 || b = 13 || b = 11 || b = 12

/-- Python `bytes.strip()` with no argument: remove leading and trailing
ASCII whitespace. -/
def stripWS (l : Bytes) : Bytes :=
  ((l.dropWhile isWSb).reverse.dropWhile isWSb).reverse

def isDigitB (b : Nat) : Bool := 48 ≤ b && b ≤ 57

/-- Accumulating decimal parser over ASCII digit bytes. -/
def parseDigitsAux : Bytes → Nat → Option Nat
  | [], acc => some acc
  | c :: rest, acc =>
      if isDigitB c then parseDigitsAux rest (acc * 10 + (c - 48)) else none

/-- Parse a nonempty run of ASCII decimal digits; `none` on empty input or any
non-digit byte. -/
def parseDigits : Bytes → Option Nat
  | [] => none
  | l => parseDigitsAux l 0

/-- Python `int(b)` on a byte string: strip whitespace, optional sign, then
decimal digits; `ValueError` (here `none`) otherwise. (Digit-group
underscores and non-decimal bases are not used by this repository.) -/
def parsePyInt (l : Bytes) : Option Int :=
  match stripWS l with
  | [] => none
  | c :: rest =>
    if c = 43 then (parseDigits rest).map Int.ofNat
    else if c = 45 then (parseDigits rest).map (fun n => -(n : Int))
    else (parseDigits (c :: rest)).map Int.ofNat

/-- Decimal value of a (possibly empty) digit run, `foldl`-style; meaningful
only when all bytes are digits. -/
def digitsVal (l : Bytes) : Nat := l.foldl (fun a c => a * 10 + (c - 48)) 0

/-- Python `float(b)` restricted to the plain decimal forms `[±]ddd`,
`[±]ddd.ddd`, `[±].ddd`, `[±]ddd.` that this server's clients would send as a
PX argument: strip whitespace, optional sign, digits with at most one dot and
at least one digit. (Exponent/inf/nan forms are not modelled.) -/
def parsePyFloat (l : Bytes) : Option ℚ :=
  let s := stripWS l
  let signed : Bool × Bytes :=
    match s with
    | 43 :: rest => (false, rest)
    | 45 :: rest => (true, rest)
    | _ => (false, s)
  let body := signed.2
  if body.count 46 ≥ 2 then none
  else
    let ip := body.takeWhile (fun b => !(b == 46))
    let fp := (body.dropWhile (fun b => !(b == 46))).drop 1
    if ip.length + fp.length = 0 then none
    else if !(ip.all isDigitB && fp.all isDigitB) then none
    else
      let mag : ℚ := (digitsVal ip : ℚ) + (digitsVal fp : ℚ) / ((10 : ℚ) ^ fp.length)
      some (if signed.1 then -mag else mag)

/-! ### Handler level (`RedisServer`) -/

/-- A RESP2 reply value as produced by the handlers via `protocol.py`. -/
inductive Reply
  | simple (s : String)
  | bulk (b : Bytes)
  | nullBulk
  | integer (n : Int)
  | array (l : List Bytes)
  | err (msg : String)
deriving DecidableEq, Repr

/-- What one dispatched command does to the connection: exactly one reply is
written, or an uncaught Python exception propagates out of the handler, in
which case no reply is written and `handle_client` tears the connection down. -/
inductive Outcome
  | reply (r : Reply)
  | exn (e : PyExn)
deriving DecidableEq, Repr

def UNKNOWN_COMMAND_MESSAGE : String := "Unknown command"
def WRONG_VALUE_MESSAGE : String := "Operation against a key holding the wrong kind of value"
/-- Stand-in for Python's `str(e)` of the `ValueError` raised by `int()` on a
non-numeric literal (the exact text is irrelevant to every claim). -/
def INVALID_INT_MESSAGE : String := "invalid literal for int with base 10"

def CMD_PING : Bytes := strBytes "PING"
def CMD_ECHO : Bytes := strBytes "ECHO"
def CMD_SET : Bytes := strBytes "SET"
def CMD_GET : Bytes := strBytes "GET"
def ARG_PX : Bytes := strBytes "PX"
def CMD_RPUSH : Bytes := strBytes "RPUSH"
def CMD_LRANGE : Bytes := strBytes "LRANGE"
def CMD_LPUSH : Bytes := strBytes "LPUSH"
def CMD_LLEN : Bytes := strBytes "LLEN"
def CMD_LPOP : Bytes := strBytes "LPOP"

/-- Python `bytes.upper()` (ASCII). -/
def upperB (l : Bytes) : Bytes :=
  l.map (fun b => if 97 ≤ b && b ≤ 122 then b - 32 else b)

/-- `handle_ping` (279-287). -/
def handle_ping (db : Db) (parts : List Bytes) : Outcome × Db :=
  if parts.length = 1 then (.reply (.simple "PONG"), db)
  else (.reply (.err UNKNOWN_COMMAND_MESSAGE), db)

/-- `handle_echo` (289-297). -/
def handle_echo (db : Db) (parts : List Bytes) : Outcome × Db :=
  if parts.length = 2 then (.reply (.bulk (parts.getD 1 [])), db)
  else (.reply (.err UNKNOWN_COMMAND_MESSAGE), db)

/-- `handle_set` (299-310). `key = parts[1]` raises `IndexError` when absent;
the PX branch needs tokens 3 and 4 (guarded by `len(parts) > 4`) and parses
`float(parts[4])`, whose `ValueError` is NOT caught; the plain branch
evaluates `parts[2]`, raising `IndexError` on a 2-token command. The single
clock sample `now` is the `time.monotonic()` inside the nested `set_`. -/
def handle_set (now : ℚ) (db : Db) (parts : List Bytes) : Outcome × Db :=
  match parts.get? 1 with
  | none => (.exn .indexError, db)
  | some key =>
    if parts.length > 4 && upperB (parts.getD 3 []) == ARG_PX then
      match parsePyFloat (parts.getD 4 []) with
      | none => (.exn .valueError, db)
      | some ms =>
          (.reply (.simple "OK"), set_ now db key (.scalar (parts.getD 2 [])) (some (ms / 1000)))
    else
      match parts.get? 2 with
      | none => (.exn .indexError, db)
      | some v => (.reply (.simple "OK"), set_ now db key (.scalar v) none)

/-- `handle_get` (312-322). On a present live entry it calls
`encode_bulk_string(result[0])`; when the stored value is a deque the
concatenation `bytes + deque` inside `encode_bulk_string` raises an uncaught
`TypeError`, so the connection is torn down with no reply. -/
def handle_get (now : ℚ) (db : Db) (parts : List Bytes) : Outcome × Db :=
  match parts.get? 1 with
  | none => (.exn .indexError, db)
  | some key =>
    match get_ now db key with
    | (some (.scalar s, _), db1) => (.reply (.bulk s), db1)
    | (some (.list _, _), db1) => (.exn .typeError, db1)
    | (none, db1) => (.reply .nullBulk, db1)

/-- `handle_rpush` (324-335): `values = parts[2:]` (possibly empty — no arity
check), `except ValueError` converts the Store's TypeMismatch into an `-ERR`
reply; any other exception would propagate. -/
def handle_rpush (now : ℚ) (db : Db) (parts : List Bytes) : Outcome × Db :=
  match parts.get? 1 with
  | none => (.exn .indexError, db)
  | some key =>
    match rpush now now now db key (parts.drop 2) with
    | (.ok n, db1) => (.reply (.integer n), db1)
    | (.error e, db1) =>
        if e = .valueError then (.reply (.err WRONG_VALUE_MESSAGE), db1)
        else (.exn e, db1)

/-- `handle_lrange` (337-349): `int(parts[2])`/`int(parts[3])` run inside the
`try`, so a non-numeric bound raises `ValueError`, caught and turned into an
`-ERR str(e)` reply — but a missing token raises `IndexError`, which the
`except ValueError` clause does not catch. -/
def handle_lrange (now : ℚ) (db : Db) (parts : List Bytes) : Outcome × Db :=
  match parts.get? 1 with
  | none => (.exn .indexError, db)
  | some key =>
    match parts.get? 2 with
    | none => (.exn .indexError, db)
    | some p2 =>
      match parsePyInt p2 with
      | none => (.reply (.err INVALID_INT_MESSAGE), db)
      | some start =>
        match parts.get? 3 with
        | none => (.exn .indexError, db)
        | some p3 =>
          match parsePyInt p3 with
          | none => (.reply (.err INVALID_INT_MESSAGE), db)
          | some stop =>
            match lrange now db key start stop with
            | (.ok res, db1) => (.reply (.array res), db1)
            | (.error e, db1) =>
                if e = .valueError then (.reply (.err WRONG_VALUE_MESSAGE), db1)
                else (.exn e, db1)

/-- `handle_lpush` (351-362): same shape as `handle_rpush`; the Store's
`UnboundLocalError` is not a `ValueError`, so it propagates uncaught. -/
def handle_lpush (now : ℚ) (db : Db) (parts : List Bytes) : Outcome × Db :=
  match parts.get? 1 with
  | none => (.exn .indexError, db)
  | some key =>
    match lpush now db key (parts.drop 2) with
    | (.ok n, db1) => (.reply (.integer n), db1)
    | (.error e, db1) =>
        if e = .valueError then (.reply (.err WRONG_VALUE_MESSAGE), db1)
        else (.exn e, db1)

/-- `handle_llen` (364-372). -/
def handle_llen (now : ℚ) (db : Db) (parts : List Bytes) : Outcome × Db :=
  match parts.get? 1 with
  | none => (.exn .indexError, db)
  | some key =>
    match llen now db key with
    | (.ok n, db1) => (.reply (.integer n), db1)
    | (.error e, db1) =>
        if e = .valueError then (.reply (.err WRONG_VALUE_MESSAGE), db1)
        else (.exn e, db1)

/-- `handle_lpop` (374-387). -/
def handle_lpop (now : ℚ) (db : Db) (parts : List Bytes) : Outcome × Db :=
  match parts.get? 1 with
  | none => (.exn .indexError, db)
  | some key =>
    match lpop now now now db key with
    | (.ok none, db1) => (.reply .nullBulk, db1)
    | (.ok (some b), db1) => (.reply (.bulk b), db1)
    | (.error e, db1) =>
        if e = .valueError then (.reply (.err WRONG_VALUE_MESSAGE), db1)
        else (.exn e, db1)

/-- `execute_command` (263-277): empty command → no reply; else dispatch on
the uppercased first token; unknown name → `-ERR Unknown command`. All
`time.monotonic()` samples taken while serving this one command are collapsed
to the single instant `now` at this level (the sample-drift question is
analysed at the Store level, where samples are separate parameters). -/
def execute_command (now : ℚ) (db : Db) (parts : List Bytes) : Option Outcome × Db :=
  match parts with
  | [] => (none, db)
  | c :: _ =>
    let cmd := upperB c
    if cmd == CMD_PING then
      let r := handle_ping db parts; (some r.1, r.2)
    else if cmd == CMD_ECHO then
      let r := handle_echo db parts; (some r.1, r.2)
    else if cmd == CMD_SET then
      let r := handle_set now db parts; (some r.1, r.2)
    else if cmd == CMD_GET then
      let r := handle_get now db parts; (some r.1, r.2)
    else if cmd == CMD_RPUSH then
      let r := handle_rpush now db parts; (some r.1, r.2)
    else if cmd == CMD_LRANGE then
      let r := handle_lrange now db parts; (some r.1, r.2)
    else if cmd == CMD_LPUSH then
      let r := handle_lpush now db parts; (some r.1, r.2)
    else if cmd == CMD_LLEN then
      let r := handle_llen now db parts; (some r.1, r.2)
    else if cmd == CMD_LPOP then
      let r := handle_lpop now db parts; (some r.1, r.2)
    else (some (.reply (.err UNKNOWN_COMMAND_MESSAGE)), db)

/-! ### Spec-side statement of the `lrange` contract (spec.md section 4.2)

These definitions follow the WORDS of the specification, to be compared with
the `lrange` function read off the code: negative indices are offsets from the
length (`start += length` clamped to `0`, `end += length` clamped to
`length-1`), `start > end` after normalisation gives the empty sequence, else
the inclusive slice `[start, end]`. -/

def specNormStart (L : Nat) (i : Int) : Int :=
  if i < 0 then max (i + L) 0 else i

def specNormStop (L : Nat) (j : Int) : Int :=
  if j < 0 then min (j + L) (L - 1) else j

/-- The inclusive slice `[start, end]` of the normalised bounds: the elements
at positions `start.toNat .. end.toNat`. -/
def specSlice (l : List Bytes) (i j : Int) : List Bytes :=
  let s := specNormStart l.length i
  let e := specNormStop l.length j
  if s > e then [] else (l.drop s.toNat).take (e.toNat + 1 - s.toNat)

/-- The five-element list `[a,b,c,d,e]` of the specification's LRANGE
normalisation test, stored under key `k` (byte 107). -/
def exDb5 : Db := [([107], (Value.list [[97], [98], [99], [100], [101]], none))]

/-! ### Lock discipline of `InMemoryDB` (server.py 98-127, 141-212)

Each Store method runs entirely inside the one asyncio task serving the
connection; awaiting a coroutine runs it inline in the same task. We therefore
record, in source order, the lock actions that a call performs:
`_get_lock` acquires and releases the `global_lock`, each method body then
acquires its key's per-key `asyncio.Lock` via `async with` and releases it on
exit. `asyncio.Lock` is not reentrant: a task that awaits `lock.acquire()` on
a lock it already holds waits forever, since only a release (which it will
never reach) could wake it. -/

inductive LockOp
  | acqG
  | relG
  | acq (k : Bytes)
  | rel (k : Bytes)
deriving DecidableEq, Repr

/-- Lock actions of `_get_lock(key)` (101-106). -/
def getLockLockOps : List LockOp := [.acqG, .relG]

/-- Lock actions of `delete` (124-127). -/
def deleteLockOps (k : Bytes) : List LockOp :=
  getLockLockOps ++ [.acq k, .rel k]

/-- Lock actions of `set_` (111-122). -/
def setLockOps (k : Bytes) : List LockOp :=
  getLockLockOps ++ [.acq k, .rel k]

/-- Lock actions of `get_` (129-139): the expired path calls `delete` while
still inside its own `async with lock` block. -/
def getOps (k : Bytes) (expired : Bool) : List LockOp :=
  getLockLockOps ++ [.acq k] ++ (if expired then deleteLockOps k else []) ++ [.rel k]

/-- Lock actions of `rpush` (141-151) on the no-raise path: it awaits `get_`
and then `set_` while holding the per-key lock it acquired on line 143.
`lpush`, `lrange`, `llen` and `lpop` all share this `acquire, then await get_
on the same key` prefix. -/
def rpushLockOps (k : Bytes) (expired : Bool) : List LockOp :=
  getLockLockOps ++ [.acq k] ++ getOps k expired ++ setLockOps k ++ [.rel k]

/-- Shared lock-action shape of `lrange` (153-171), `llen` (185-193) and the
raise path of `lpush` (173-183): acquire the per-key lock, await `get_` on the
same key inside the `async with` block, release on exit. -/
def lrangeLockOps (k : Bytes) (expired : Bool) : List LockOp :=
  getLockLockOps ++ [.acq k] ++ getOps k expired ++ [.rel k]

/-- Run a sequence of lock actions performed by one task, tracking whether
that task holds the global lock and which per-key locks it holds. `none`
means the task blocked forever: it tried to acquire a non-reentrant lock it
already holds, and no other task can ever release it. -/
def runLocks : List LockOp → Bool → List Bytes → Option (Bool × List Bytes)
  | [], g, held => some (g, held)
  | .acqG :: rest, g, held => if g then none else runLocks rest true held
  | .relG :: rest, _, held => runLocks rest false held
  | .acq k :: rest, g, held =>
      if held.contains k then none else runLocks rest g (k :: held)
  | .rel k :: rest, g, held => runLocks rest g (held.erase k)

/-! ### RESP2 codec (`protocol.py`, `parser.py`) -/

/-- Big-endian ASCII decimal digits of `n`, structurally recursive on a fuel
argument (`digitsRevGo n n` is enough fuel since `n / 10 < n` for `n > 0`);
produces the digits least-significant first. -/
def digitsRevGo : Nat → Nat → List Nat
  | _, 0 => []
  | 0, _ + 1 => []
  | f + 1, n + 1 => ((n + 1) % 10 + 48) :: digitsRevGo f ((n + 1) / 10)

/-- `str(n).encode()` for a natural number `n`: its ASCII decimal digits. -/
def natDecimal (n : Nat) : List Nat :=
  if n = 0 then [48] else (digitsRevGo n n).reverse

/-- `encode_bulk_string` (protocol.py 17-20):
`b"$" + str(len(data)).encode() + b"\r\n" + data + b"\r\n"`. -/
def encode_bulk_string (data : Bytes) : List Nat :=
  36 :: natDecimal data.length ++ [13, 10] ++ data ++ [13, 10]

/-- `reader.readuntil(b"\r\n")`: the stream up to and including the first
CRLF, together with what remains; `none` when no CRLF arrives before the
stream ends (`IncompleteReadError`). -/
def readuntilCRLF : List Nat → Option (List Nat × List Nat)
  | [] => none
  | [_] => none
  | b1 :: b2 :: rest =>
      if b1 = 13 ∧ b2 = 10 then some ([13, 10], rest)
      else (readuntilCRLF (b2 :: rest)).map (fun p => (b1 :: p.1, p.2))

/-- Result of `read_bulk_string` on a byte stream: the payload plus the
unconsumed remainder, or `None` (framing error / short read, both of which the
function maps to `None`), or an uncaught `ValueError` (non-numeric length
literal, or a negative length passed to `readexactly`). -/
inductive BulkOut
  | data (payload : List Nat) (rest : List Nat)
  | failNone
  | raised
deriving DecidableEq, Repr

/-- `read_bulk_string` (parser.py 21-39): read the `$<len>` line, parse
`int(len_line[1:].strip())`, read exactly `len` payload bytes and the 2
trailing bytes. A missing CRLF or short read yields `None` (the
`IncompleteReadError` handler); a non-`$` prefix yields `None`; a bad or
negative length raises `ValueError` out of the function. -/
def read_bulk_string (stream : List Nat) : BulkOut :=
  match readuntilCRLF stream with
  | none => .failNone
  | some (lenLine, rest) =>
    match lenLine with
    | [] => .failNone
    | c :: lenBody =>
      if c = 36 then
        match parsePyInt lenBody with
        | none => .raised
        | some (Int.negSucc _) => .raised
        | some (Int.ofNat length) =>
            if rest.length < length then .failNone
            else
              let payload := rest.take length
              let rest1 := rest.drop length
              if rest1.length < 2 then .failNone
              else .data payload (rest1.drop 2)
      else .failNone

/-! ## Theorems

First the shared helper lemmas, then one theorem per claim (with its witness
or counterexample where applicable). -/

theorem dbGet_dbDelete_self (db : Db) (k : Bytes) : dbGet (dbDelete db k) k = none := by
  induction db with
  | nil => rfl
  | cons p rest ih =>
      by_cases h : p.1 == k
      · simpa [dbDelete, dbGet, List.filter_cons, h] using ih
      · simp only [dbDelete, List.filter_cons, h] at ih ⊢
        simpa [dbGet, List.find?_cons_of_neg, h] using ih

theorem dbGet_dbInsert_self (db : Db) (k : Bytes) (e : Entry) :
    dbGet (dbInsert db k e) k = some e := by
  simp [dbGet, dbInsert, List.find?_cons_of_pos]

theorem mkExpiry_none (now : ℚ) : mkExpiry now none = none := rfl

theorem pyMax_eq_max (a b : Int) : pyMax a b = max a b := by
  unfold pyMax
  rcases lt_or_ge a b with h | h
  · rw [if_pos h, max_eq_right h.le]
  · rw [if_neg (not_lt.mpr h), max_eq_left h]

theorem pyMin_eq_min (a b : Int) : pyMin a b = min a b := by
  unfold pyMin
  rcases lt_or_ge b a with h | h
  · rw [if_pos h, min_eq_right h.le]
  · rw [if_neg (not_lt.mpr h), min_eq_left h]

theorem islicePy_eq_slice (l : List Bytes) (a b : Nat) (hab : a ≤ b + 1) :
    islicePy l a (b + 1) = (l.drop a).take (b + 1 - a) := by
  unfold islicePy
  rw [List.take_drop]
  have hx : a + (b + 1 - a) = b + 1 := by omega
  rw [hx]

theorem digitsRevGo_eq (f : Nat) : ∀ n : Nat, n ≤ f →
    digitsRevGo f n = (Nat.digits 10 n).map (· + 48) := by
  induction f with
  | zero =>
      intro n hn
      have h0 : n = 0 := Nat.le_zero.mp hn
      subst h0
      simp [digitsRevGo]
  | succ f ih =>
      intro n hn
      cases n with
      | zero => simp [digitsRevGo]
      | succ m =>
          rw [digitsRevGo]
          rw [Nat.digits_def' (by norm_num : (1:Nat) < 10) (Nat.succ_pos m)]
          rw [List.map_cons]
          congr 1
          refine ih ((m + 1) / 10) ?_
          have h1 : (m + 1) / 10 < m + 1 := Nat.div_lt_self (Nat.succ_pos m) (by norm_num)
          omega

theorem natDecimal_eq {n : Nat} (h : n ≠ 0) :
    natDecimal n = ((Nat.digits 10 n).map (· + 48)).reverse := by
  rw [natDecimal, if_neg h, digitsRevGo_eq n n le_rfl]

theorem natDecimal_digits {n d : Nat} (hd : d ∈ natDecimal n) : 48 ≤ d ∧ d ≤ 57 := by
  by_cases h : n = 0
  · subst h
    simp [natDecimal] at hd
    omega
  · rw [natDecimal_eq h, List.mem_reverse, List.mem_map] at hd
    obtain ⟨x, hx, rfl⟩ := hd
    have := Nat.digits_lt_base (by norm_num) hx
    omega

theorem natDecimal_ne_nil (n : Nat) : natDecimal n ≠ [] := by
  by_cases h : n = 0
  · subst h; simp [natDecimal]
  · rw [natDecimal_eq h]
    simp [Nat.digits_ne_nil_iff_ne_zero.mpr h]

theorem parseDigitsAux_map (l : List Nat) (hl : ∀ d ∈ l, d < 10) : ∀ acc,
    parseDigitsAux (l.map (· + 48)) acc = some (l.foldl (fun a d => a * 10 + d) acc) := by
  induction l with
  | nil => intro acc; rfl
  | cons d rest ih =>
      intro acc
      have hd : d < 10 := hl d (by simp)
      have hdig : isDigitB (d + 48) = true := by simp [isDigitB]; omega
      rw [List.map_cons, parseDigitsAux, if_pos hdig]
      simp only [Nat.add_sub_cancel]
      rw [ih (fun x hx => hl x (by simp [hx]))]
      rw [List.foldl_cons]

theorem foldr_mul_add (l : List Nat) :
    l.foldr (fun d a => a * 10 + d) 0 = Nat.ofDigits 10 l := by
  induction l with
  | nil => simp [Nat.ofDigits]
  | cons d rest ih =>
      rw [List.foldr_cons, ih, Nat.ofDigits_cons]
      ring

theorem parseDigits_natDecimal (n : Nat) : parseDigits (natDecimal n) = some n := by
  by_cases h : n = 0
  · subst h; rfl
  · obtain ⟨hb, t, hht⟩ : ∃ hb t, natDecimal n = hb :: t := by
      cases hnd : natDecimal n with
      | nil => exact absurd hnd (natDecimal_ne_nil n)
      | cons hb t => exact ⟨hb, t, rfl⟩
    have hmain : parseDigitsAux (natDecimal n) 0 = some n := by
      rw [natDecimal_eq h, ← List.map_reverse]
      rw [parseDigitsAux_map _ (fun d hd => Nat.digits_lt_base (by norm_num)
        (by simpa using hd)) 0]
      rw [List.foldl_reverse]
      rw [foldr_mul_add, Nat.ofDigits_digits]
    rw [hht] at hmain ⊢
    exact hmain

theorem readuntilCRLF_append {a : List Nat} (rest : List Nat) (ha : 13 ∉ a) :
    readuntilCRLF (a ++ 13 :: 10 :: rest) = some (a ++ [13, 10], rest) := by
  induction a with
  | nil => simp [readuntilCRLF]
  | cons b a' ih =>
      have hb : b ≠ 13 := fun hc => ha (hc ▸ List.mem_cons_self b a')
      have ha' : 13 ∉ a' := fun hc => ha (List.mem_cons_of_mem b hc)
      cases a' with
      | nil =>
          simp only [List.nil_append, List.cons_append]
          rw [readuntilCRLF]
          rw [if_neg (by simp [hb])]
          simp [readuntilCRLF]
      | cons c a'' =>
          simp only [List.cons_append]
          rw [readuntilCRLF]
          have h10 : ¬(b = 13 ∧ c = 10) := fun hc => hb hc.1
          rw [if_neg h10]
          have hx := ih ha'
          simp only [List.cons_append] at hx
          rw [hx]
          simp

theorem dropWhile_eq_self_of_not (l : List Nat) (h : ∀ x ∈ l, isWSb x = false) :
    l.dropWhile isWSb = l := by
  cases l with
  | nil => rfl
  | cons a t => rw [List.dropWhile_cons_of_neg (by simp [h a (List.mem_cons_self a t)])]

theorem stripWS_digits_crlf {d : List Nat} (hne : d ≠ [])
    (hd : ∀ x ∈ d, 48 ≤ x ∧ x ≤ 57) : stripWS (d ++ [13, 10]) = d := by
  have hnotWS : ∀ x ∈ d, isWSb x = false := by
    intro x hx
    have := hd x hx
    simp [isWSb]
    omega
  obtain ⟨dh, dt, rfl⟩ : ∃ dh dt, d = dh :: dt := by
    cases d with
    | nil => exact absurd rfl hne
    | cons dh dt => exact ⟨dh, dt, rfl⟩
  unfold stripWS
  have h1 : List.dropWhile isWSb (dh :: dt ++ [13, 10]) = dh :: dt ++ [13, 10] := by
    rw [List.cons_append, List.dropWhile_cons_of_neg
      (by simp [hnotWS dh (List.mem_cons_self dh dt)])]
  rw [h1]
  have h2 : ((dh :: dt ++ [13, 10]) : List Nat).reverse = 10 :: 13 :: (dh :: dt).reverse := by
    simp
  rw [h2]
  rw [List.dropWhile_cons_of_pos (by simp [isWSb]), List.dropWhile_cons_of_pos (by simp [isWSb])]
  rw [dropWhile_eq_self_of_not _ (by
    intro x hx
    exact hnotWS x (List.mem_reverse.mp hx))]
  simp



/-- C1: the claim says `lpush(k, [a,b,c])` creates `[c,b,a]` on an absent key
and prepends `[c,b,a]` ahead of existing elements, returning the length. In
the code, the assignment `deque = current[0] if current else deque([])` makes
`deque` a local name, so every `lpush` call raises `UnboundLocalError` before
touching the deque: no entry is created, no length is returned, and the
handler's `except ValueError` does not catch it. Evaluations at the claim's
inputs (an absent key and a key holding the list `[x]`), plus the general
statement that `lpush` always raises. -/
theorem C1_lpush_unbound_local :
    lpush 0 ([] : Db) [107] [[97], [98], [99]] = (.error .unboundLocalError, [])
  ∧ lpush 0 [([107], (Value.list [[120]], none))] [107] [[97], [98], [99]]
      = (.error .unboundLocalError, [([107], (Value.list [[120]], none))])
  ∧ execute_command 0 [([107], (Value.list [[120]], none))] [CMD_LPUSH, [107], [97], [98], [99]]
      = (some (.exn .unboundLocalError), [([107], (Value.list [[120]], none))])
  ∧ ∀ (s1 : ℚ) (db : Db) (k : Bytes) (vs : List Bytes),
      (lpush s1 db k vs).1 = .error .unboundLocalError := by
  refine ⟨by decide, by decide, by decide, ?_⟩
  intro s1 db k vs
  rcases hg : get_ s1 db k with ⟨cur, db1⟩
  cases cur <;> simp [lpush, hg]

/-- C4: the claim says rpush/lpush keep a live entry's absolute expiry `t`
unchanged, never recomputing it against the clock. The code re-anchors it:
`rpush` passes `max(expiry - time.monotonic(), 0)` and `set_` adds a fresh
`time.monotonic()`, so with clock samples 10 (inside rpush, line 150) and 11
(inside set_, line 121) an entry expiring at 100 is re-stored expiring at
101 = 11 + (100 - 10); the expiry drifts by the distance between samples. -/
theorem C4_expiry_drift :
    rpush 10 10 11 [([107], (Value.list [[120]], some 100))] [107] [[97]]
      = (.ok 2, [([107], (Value.list [[120], [97]], some 101))])
  ∧ dbGet [([107], (Value.list [[120]], some 100))] [107] = some (.list [[120]], some 100)
  ∧ dbGet [([107], (Value.list [[120], [97]], some 101))] [107] = some (.list [[120], [97]], some 101)
  ∧ decide ((101 : ℚ) = 100) = false := by
  refine ⟨?_, by decide, by decide, by decide⟩
  norm_num [rpush, get_, liveB, dbGet, dbDelete, dbInsert, set_, mkExpiry, remainingTTL, pyMax,
    List.find?, List.filter]

/-- C5: the claim says every Store operation terminates, acquiring and
releasing the per-key lock. In the code every list operation awaits `get_`
(and `set_`/`delete`) on the same key while already holding that key's
non-reentrant `asyncio.Lock`, so the task blocks forever (`runLocks ... =
none`) on its first call; `get_` itself deadlocks on the expired path via the
nested `delete`. Only `set_` and `delete` (and `get_` on a live or absent key)
complete. -/
theorem C5_self_deadlock (k : Bytes) :
    runLocks (rpushLockOps k false) false [] = none
  ∧ runLocks (rpushLockOps k true) false [] = none
  ∧ runLocks (lrangeLockOps k false) false [] = none
  ∧ runLocks (lrangeLockOps k true) false [] = none
  ∧ runLocks (getOps k true) false [] = none
  ∧ runLocks (getOps k false) false [] = some (false, [])
  ∧ runLocks (setLockOps k) false [] = some (false, [])
  ∧ runLocks (deleteLockOps k) false [] = some (false, []) := by
  refine ⟨?_, ?_, ?_, ?_, ?_, ?_, ?_, ?_⟩ <;>
    simp [rpushLockOps, lrangeLockOps, getLockLockOps, getOps, setLockOps, deleteLockOps,
      runLocks]

/-- C7: `get` returns `None` on an absent key; returns the stored value when
the expiry is `None` or strictly in the future; and on a passed expiry
(`liveB = false`) deletes the entry as a side effect and returns `None`, after
which the key is absent and `llen` sees `0`. -/
theorem C7_get_expiry (now : ℚ) (db : Db) (k : Bytes) :
    (dbGet db k = none → get_ now db k = (none, db))
  ∧ (∀ v, dbGet db k = some (v, none) → get_ now db k = (some (v, none), db))
  ∧ (∀ v t, dbGet db k = some (v, some t) → liveB (some t) now = true →
      get_ now db k = (some (v, some t), db))
  ∧ (∀ v t, dbGet db k = some (v, some t) → liveB (some t) now = false →
      get_ now db k = (none, dbDelete db k)
      ∧ dbGet (dbDelete db k) k = none
      ∧ llen now (dbDelete db k) k = (.ok 0, dbDelete db k)) := by
  refine ⟨?_, ?_, ?_, ?_⟩
  · intro h; simp [get_, h]
  · intro v h; simp [get_, h, liveB]
  · intro v t h hl; simp [get_, h, hl]
  · intro v t h hl
    refine ⟨by simp [get_, h, hl], dbGet_dbDelete_self db k, ?_⟩
    simp [llen, get_, dbGet_dbDelete_self]

/-- C7 witness: a key holding scalar `v` with expiry 3 read at clock 5: the
entry is expired, `get_` deletes it and returns `None`, and `llen` then sees
an absent key. -/
theorem C7_get_expiry_witness :
    dbGet [([107], (Value.scalar [118], some 3))] [107] = some (.scalar [118], some 3)
  ∧ liveB (some 3) 5 = false
  ∧ get_ 5 [([107], (Value.scalar [118], some 3))] [107] = (none, [])
  ∧ llen 5 ([] : Db) [107] = (.ok 0, []) := by
  have H := (C7_get_expiry 5 [([107], (Value.scalar [118], some 3))] [107]).2.2.2
    (Value.scalar [118]) 3 rfl (by decide)
  exact ⟨rfl, by decide, H.1, H.2.2⟩

/-- C8: the claim says all five list operations on a live Scalar-typed key
fail with the TypeMismatch `ValueError` and leave the Store untouched, `get`
still returning the value. True for `rpush`, `lrange`, `llen` and `lpop`
(whose handlers turn it into the `-ERR` wrong-kind reply); but `lpush` fails
with `UnboundLocalError` instead (the shadowed `deque` name is read by the
`isinstance` check before the type test can raise), which its handler's
`except ValueError` does not catch, so the LPUSH connection is torn down
rather than replied to. No operation mutates the store. -/
theorem C8_scalar_type_guard (now s2 s3 : ℚ) (db : Db) (k : Bytes) (v : Bytes)
    (ex : Option ℚ) (vs : List Bytes) (i j : Int)
    (h : dbGet db k = some (.scalar v, ex)) (hl : liveB ex now = true) :
    rpush now s2 s3 db k vs = (.error .valueError, db)
  ∧ lrange now db k i j = (.error .valueError, db)
  ∧ llen now db k = (.error .valueError, db)
  ∧ lpop now s2 s3 db k = (.error .valueError, db)
  ∧ lpush now db k vs = (.error .unboundLocalError, db)
  ∧ get_ now db k = (some (.scalar v, ex), db)
  ∧ execute_command now db [CMD_RPUSH, k, [120]]
      = (some (.reply (.err WRONG_VALUE_MESSAGE)), db)
  ∧ execute_command now db [CMD_LPUSH, k, [120]]
      = (some (.exn .unboundLocalError), db) := by
  have hget : get_ now db k = (some (.scalar v, ex), db) := by simp [get_, h, hl]
  refine ⟨by simp [rpush, hget], by simp [lrange, hget], by simp [llen, hget],
    by simp [lpop, hget], by simp [lpush, hget], hget, ?_, ?_⟩
  · have hd : execute_command now db [CMD_RPUSH, k, [120]]
        = (some (handle_rpush now db [CMD_RPUSH, k, [120]]).1,
           (handle_rpush now db [CMD_RPUSH, k, [120]]).2) := rfl
    rw [hd]
    simp [handle_rpush, rpush, hget]
  · have hd : execute_command now db [CMD_LPUSH, k, [120]]
        = (some (handle_lpush now db [CMD_LPUSH, k, [120]]).1,
           (handle_lpush now db [CMD_LPUSH, k, [120]]).2) := rfl
    rw [hd]
    simp [handle_lpush, lpush, hget]

/-- C8 witness: `SET k v` then the five list operations at one instant. -/
theorem C8_scalar_type_guard_witness :
    dbGet [([107], (Value.scalar [118], none))] [107] = some (.scalar [118], none)
  ∧ liveB none 0 = true
  ∧ rpush 0 0 0 [([107], (Value.scalar [118], none))] [107] [[120]]
      = (.error .valueError, [([107], (Value.scalar [118], none))])
  ∧ lpush 0 [([107], (Value.scalar [118], none))] [107] [[120]]
      = (.error .unboundLocalError, [([107], (Value.scalar [118], none))]) := by
  have H := C8_scalar_type_guard 0 0 0 [([107], (Value.scalar [118], none))] [107] [118]
    none [[120]] 0 0 rfl rfl
  exact ⟨rfl, rfl, H.1, H.2.2.2.2.1⟩

/-- C9 counterexample: the claim says no Store operation ever creates a
zero-length List entry. `rpush` with an empty item sequence on an absent key
stores exactly such an entry (and returns length 0); it is reachable from the
wire as the two-token command `RPUSH k`, which replies `:0`. -/
theorem C9_empty_push_counterexample :
    rpush 0 0 0 ([] : Db) [107] [] = (.ok 0, [([107], (Value.list [], none))])
  ∧ dbGet [([107], (Value.list [], none))] [107] = some (.list [], none)
  ∧ execute_command 0 ([] : Db) [CMD_RPUSH, [107]]
      = (some (.reply (.integer 0)), [([107], (Value.list [], none))]) := by
  refine ⟨by decide, by decide, by decide⟩

/-- C9 amended: `lpop` does delete the key when it pops the last element (so
`RPUSH k a; LPOP k; LLEN k` gives `a`, then `0`, with the key absent), a pop
from a longer list keeps a nonempty list, and a push of a nonempty item
sequence onto an absent key creates a nonempty entry; but `rpush`/`lpush`
invoked with zero items can create a zero-length List entry, and `lpop` on
such an entry returns `None` and RETAINS it (lines 204-205) rather than
deleting it. -/
theorem C9_amended (now s2 s3 : ℚ) (db : Db) (k : Bytes) :
    (∀ a ex, dbGet db k = some (.list [a], ex) → liveB ex now = true →
        lpop now s2 s3 db k = (.ok (some a), dbDelete db k)
        ∧ dbGet (dbDelete db k) k = none
        ∧ llen now (dbDelete db k) k = (.ok 0, dbDelete db k))
  ∧ (∀ vs, dbGet db k = none → vs ≠ [] →
        rpush now s2 s3 db k vs = (.ok vs.length, set_ s3 db k (.list vs) none)
        ∧ dbGet (set_ s3 db k (.list vs) none) k = some (.list vs, none))
  ∧ (∀ a b t ex, dbGet db k = some (.list (a :: b :: t), ex) → liveB ex now = true →
        lpop now s2 s3 db k = (.ok (some a), set_ s3 db k (.list (b :: t)) (remainingTTL ex s2)))
  ∧ (∀ ex, dbGet db k = some (.list [], ex) → liveB ex now = true →
        lpop now s2 s3 db k = (.ok none, db)) := by
  refine ⟨?_, ?_, ?_, ?_⟩
  · intro a ex h hl
    have hget : get_ now db k = (some (.list [a], ex), db) := by simp [get_, h, hl]
    refine ⟨by simp [lpop, hget], dbGet_dbDelete_self db k, ?_⟩
    simp [llen, get_, dbGet_dbDelete_self]
  · intro vs h hvs
    have hget : get_ now db k = (none, db) := by simp [get_, h]
    refine ⟨by simp [rpush, hget, set_, mkExpiry_none], ?_⟩
    simp [set_, dbGet_dbInsert_self, mkExpiry_none]
  · intro a b t ex h hl
    have hget : get_ now db k = (some (.list (a :: b :: t), ex), db) := by simp [get_, h, hl]
    simp [lpop, hget]
  · intro ex h hl
    have hget : get_ now db k = (some (.list [], ex), db) := by simp [get_, h, hl]
    simp [lpop, hget]

/-- C9 witness for the amended claim: `RPUSH k a` on an empty store, then
`LPOP k` returns `a` and deletes the key, then `LLEN k` is `0`. -/
theorem C9_amended_witness :
    dbGet [([107], (Value.list [[97]], none))] [107] = some (.list [[97]], none)
  ∧ rpush 0 0 0 ([] : Db) [107] [[97]] = (.ok 1, [([107], (Value.list [[97]], none))])
  ∧ lpop 0 0 0 [([107], (Value.list [[97]], none))] [107] = (.ok (some [97]), [])
  ∧ llen 0 ([] : Db) [107] = (.ok 0, []) := by
  have H := (C9_amended 0 0 0 [([107], (Value.list [[97]], none))] [107]).1 [97] none rfl rfl
  exact ⟨rfl, by decide, H.1, H.2.2⟩

/-- C2 counterexample: the claim says GET has no error case — for every key,
List-typed included, it yields a bulk-string or null-bulk-string reply, never
a dropped connection. On a key holding a List, `handle_get` passes the deque
to `encode_bulk_string`, whose `bytes + deque` concatenation raises an
uncaught `TypeError` (`Outcome.exn`, not an `Outcome.reply`): no reply is
written and `handle_client` tears the connection down. -/
theorem C2_get_list_counterexample :
    execute_command 0 [([107], (Value.list [[97]], none))] [CMD_GET, [107]]
      = (some (.exn .typeError), [([107], (Value.list [[97]], none))]) := by
  decide

/-- C2 amended: each dispatched GET produces exactly one outcome; on a live
Scalar key it is the bulk-string reply, on an absent key the null bulk
string, but on a live List-typed key it is an uncaught `TypeError` that tears
the connection down instead of any reply. -/
theorem C2_get_amended (now : ℚ) (db : Db) (k : Bytes) :
    (∀ s ex, dbGet db k = some (.scalar s, ex) → liveB ex now = true →
        execute_command now db [CMD_GET, k] = (some (.reply (.bulk s)), db))
  ∧ (dbGet db k = none →
        execute_command now db [CMD_GET, k] = (some (.reply .nullBulk), db))
  ∧ (∀ l ex, dbGet db k = some (.list l, ex) → liveB ex now = true →
        execute_command now db [CMD_GET, k] = (some (.exn .typeError), db)) := by
  have hd : execute_command now db [CMD_GET, k]
      = (some (handle_get now db [CMD_GET, k]).1, (handle_get now db [CMD_GET, k]).2) := rfl
  refine ⟨?_, ?_, ?_⟩
  · intro s ex h hl
    have hget : get_ now db k = (some (.scalar s, ex), db) := by simp [get_, h, hl]
    rw [hd]
    simp [handle_get, hget]
  · intro h
    have hget : get_ now db k = (none, db) := by simp [get_, h]
    rw [hd]
    simp [handle_get, hget]
  · intro l ex h hl
    have hget : get_ now db k = (some (.list l, ex), db) := by simp [get_, h, hl]
    rw [hd]
    simp [handle_get, hget]

/-- C2 witness: GET on a live scalar key and on an absent key. -/
theorem C2_get_amended_witness :
    dbGet [([107], (Value.scalar [118], none))] [107] = some (.scalar [118], none)
  ∧ liveB none 0 = true
  ∧ execute_command 0 [([107], (Value.scalar [118], none))] [CMD_GET, [107]]
      = (some (.reply (.bulk [118])), [([107], (Value.scalar [118], none))])
  ∧ execute_command 0 ([] : Db) [CMD_GET, [107]] = (some (.reply .nullBulk), []) := by
  refine ⟨rfl, rfl, ?_, ?_⟩
  · exact (C2_get_amended 0 [([107], (Value.scalar [118], none))] [107]).1 [118] none rfl rfl
  · exact (C2_get_amended 0 ([] : Db) [107]).2.1 rfl

/-- C3 counterexample: the claim says a recognized command with wrong arity is
rejected by the handler with an `-ERR` reply before any Store call, the
connection staying open. `GET` with one token instead raises an uncaught
`IndexError` at `key = parts[1]`: the outcome is `Outcome.exn .indexError`,
not an error reply, and the connection is torn down (the Store is indeed
untouched). -/
theorem C3_no_arity_validation_counterexample :
    execute_command 0 ([] : Db) [CMD_GET] = (some (.exn .indexError), []) := by
  decide

/-- C3 amended: the handlers perform no arity validation. A recognized
command whose positional argument is missing raises an uncaught `IndexError`
(no reply, connection torn down, Store unchanged); `SET` with a non-numeric
`PX` value raises an uncaught `ValueError`; `LRANGE` with four tokens and a
non-numeric bound is the only listed validation failure that yields an `-ERR`
reply (its `except ValueError` catches the `int()` failure), while `LRANGE`
with three tokens raises `IndexError` at `parts[3]` even when the bound
parses; `RPUSH` with only two tokens is NOT rejected: it reaches the Store
and creates an empty list entry, replying `:0`; `LPUSH` with two tokens
raises `UnboundLocalError`; and surplus tokens are ignored rather than
rejected (three-token `GET` answers normally). -/
theorem C3_amended :
    (∀ (now : ℚ) (db : Db), execute_command now db [CMD_SET] = (some (.exn .indexError), db))
  ∧ (∀ (now : ℚ) (db : Db) (k : Bytes),
      execute_command now db [CMD_SET, k] = (some (.exn .indexError), db))
  ∧ (∀ (now : ℚ) (db : Db), execute_command now db [CMD_GET] = (some (.exn .indexError), db))
  ∧ (∀ (now : ℚ) (db : Db), execute_command now db [CMD_LLEN] = (some (.exn .indexError), db))
  ∧ (∀ (now : ℚ) (db : Db), execute_command now db [CMD_LPOP] = (some (.exn .indexError), db))
  ∧ (∀ (now : ℚ) (db : Db), execute_command now db [CMD_RPUSH] = (some (.exn .indexError), db))
  ∧ (∀ (now : ℚ) (db : Db), execute_command now db [CMD_LPUSH] = (some (.exn .indexError), db))
  ∧ (∀ (now : ℚ) (db : Db), execute_command now db [CMD_LRANGE] = (some (.exn .indexError), db))
  ∧ (∀ (now : ℚ) (db : Db) (k : Bytes),
      execute_command now db [CMD_LRANGE, k] = (some (.exn .indexError), db))
  ∧ (∀ (now : ℚ) (db : Db) (k p2 : Bytes) (i : Int), parsePyInt p2 = some i →
      execute_command now db [CMD_LRANGE, k, p2] = (some (.exn .indexError), db))
  ∧ (∀ (now : ℚ) (db : Db) (k p2 : Bytes), parsePyInt p2 = none →
      execute_command now db [CMD_LRANGE, k, p2]
        = (some (.reply (.err INVALID_INT_MESSAGE)), db))
  ∧ (∀ (now : ℚ) (db : Db) (k p2 p3 : Bytes) (i : Int),
      parsePyInt p2 = some i → parsePyInt p3 = none →
      execute_command now db [CMD_LRANGE, k, p2, p3]
        = (some (.reply (.err INVALID_INT_MESSAGE)), db))
  ∧ (∀ (now : ℚ) (db : Db) (k v px : Bytes), parsePyFloat px = none →
      execute_command now db [CMD_SET, k, v, ARG_PX, px] = (some (.exn .valueError), db))
  ∧ (∀ (now : ℚ) (db : Db) (k : Bytes), dbGet db k = none →
      execute_command now db [CMD_RPUSH, k]
        = (some (.reply (.integer 0)), set_ now db k (.list []) none))
  ∧ (∀ (now : ℚ) (db : Db) (k : Bytes), dbGet db k = none →
      execute_command now db [CMD_LPUSH, k] = (some (.exn .unboundLocalError), db))
  ∧ (∀ (now : ℚ) (db : Db) (k junk : Bytes), dbGet db k = none →
      execute_command now db [CMD_GET, k, junk] = (some (.reply .nullBulk), db)) := by
  refine ⟨fun _ _ => rfl, fun _ _ _ => rfl, fun _ _ => rfl, fun _ _ => rfl, fun _ _ => rfl,
    fun _ _ => rfl, fun _ _ => rfl, fun _ _ => rfl, fun _ _ _ => rfl, ?_, ?_, ?_, ?_, ?_, ?_, ?_⟩
  · intro now db k p2 i h
    have hd : execute_command now db [CMD_LRANGE, k, p2]
        = (some (handle_lrange now db [CMD_LRANGE, k, p2]).1,
           (handle_lrange now db [CMD_LRANGE, k, p2]).2) := rfl
    rw [hd]
    simp [handle_lrange, h]
  · intro now db k p2 h
    have hd : execute_command now db [CMD_LRANGE, k, p2]
        = (some (handle_lrange now db [CMD_LRANGE, k, p2]).1,
           (handle_lrange now db [CMD_LRANGE, k, p2]).2) := rfl
    rw [hd]
    simp [handle_lrange, h]
  · intro now db k p2 p3 i h2 h3
    have hd : execute_command now db [CMD_LRANGE, k, p2, p3]
        = (some (handle_lrange now db [CMD_LRANGE, k, p2, p3]).1,
           (handle_lrange now db [CMD_LRANGE, k, p2, p3]).2) := rfl
    rw [hd]
    simp [handle_lrange, h2, h3]
  · intro now db k v px h
    have hd : execute_command now db [CMD_SET, k, v, ARG_PX, px]
        = (some (handle_set now db [CMD_SET, k, v, ARG_PX, px]).1,
           (handle_set now db [CMD_SET, k, v, ARG_PX, px]).2) := rfl
    rw [hd]
    have hup : upperB ARG_PX = ARG_PX := by decide
    simp [handle_set, h, hup]
  · intro now db k h
    have hget : get_ now db k = (none, db) := by simp [get_, h]
    have hd : execute_command now db [CMD_RPUSH, k]
        = (some (handle_rpush now db [CMD_RPUSH, k]).1,
           (handle_rpush now db [CMD_RPUSH, k]).2) := rfl
    rw [hd]
    simp [handle_rpush, rpush, hget]
  · intro now db k h
    have hget : get_ now db k = (none, db) := by simp [get_, h]
    have hd : execute_command now db [CMD_LPUSH, k]
        = (some (handle_lpush now db [CMD_LPUSH, k]).1,
           (handle_lpush now db [CMD_LPUSH, k]).2) := rfl
    rw [hd]
    simp [handle_lpush, lpush, hget]
  · intro now db k junk h
    have hget : get_ now db k = (none, db) := by simp [get_, h]
    have hd : execute_command now db [CMD_GET, k, junk]
        = (some (handle_get now db [CMD_GET, k, junk]).1,
           (handle_get now db [CMD_GET, k, junk]).2) := rfl
    rw [hd]
    simp [handle_get, hget]

/-- C3 witness: each hypothesis-bearing branch of the amended statement at a
concrete input (non-numeric LRANGE bounds, non-numeric PX, empty RPUSH on an
absent key, two-token LPUSH, three-token GET). -/
theorem C3_amended_witness :
    parsePyInt [120] = none
  ∧ parsePyInt [49] = some 1
  ∧ parsePyFloat [120] = none
  ∧ dbGet ([] : Db) [107] = none
  ∧ execute_command 0 ([] : Db) [CMD_LRANGE, [107], [49], [120]]
      = (some (.reply (.err INVALID_INT_MESSAGE)), [])
  ∧ execute_command 0 ([] : Db) [CMD_SET, [107], [118], ARG_PX, [120]]
      = (some (.exn .valueError), [])
  ∧ execute_command 0 ([] : Db) [CMD_RPUSH, [107]]
      = (some (.reply (.integer 0)), set_ 0 ([] : Db) [107] (.list []) none)
  ∧ execute_command 0 ([] : Db) [CMD_LPUSH, [107]] = (some (.exn .unboundLocalError), [])
  ∧ execute_command 0 ([] : Db) [CMD_GET, [107], [9]] = (some (.reply .nullBulk), []) := by
  refine ⟨by decide, by decide, by decide, rfl, ?_, ?_, ?_, ?_, ?_⟩
  · exact C3_amended.2.2.2.2.2.2.2.2.2.2.2.1 0 [] [107] [49] [120] 1 (by decide) (by decide)
  · exact C3_amended.2.2.2.2.2.2.2.2.2.2.2.2.1 0 [] [107] [118] [120] (by decide)
  · exact C3_amended.2.2.2.2.2.2.2.2.2.2.2.2.2.1 0 [] [107] rfl
  · exact C3_amended.2.2.2.2.2.2.2.2.2.2.2.2.2.2.1 0 [] [107] rfl
  · exact C3_amended.2.2.2.2.2.2.2.2.2.2.2.2.2.2.2 0 [] [107] [9] rfl

/-- C6: `lrange` on a live List-typed key equals the specification's
normalise-then-inclusive-slice contract (`specSlice`, written from the spec's
words); on an absent key it returns the empty sequence, and on an expired key
it returns the empty sequence (deleting the expired entry, per `get_`). The
spec's three concrete examples on `[a,b,c,d,e]` are included. -/
theorem C6_lrange (now : ℚ) (db : Db) (k : Bytes) (i j : Int) :
    (∀ l ex, dbGet db k = some (.list l, ex) → liveB ex now = true →
        lrange now db k i j = (.ok (specSlice l i j), db))
  ∧ (dbGet db k = none → lrange now db k i j = (.ok [], db))
  ∧ (∀ v t, dbGet db k = some (v, some t) → liveB (some t) now = false →
        lrange now db k i j = (.ok [], dbDelete db k))
  ∧ lrange 0 exDb5 [107] (-100) 2 = (.ok [[97], [98], [99]], exDb5)
  ∧ lrange 0 exDb5 [107] 3 1 = (.ok [], exDb5)
  ∧ lrange 0 exDb5 [107] 0 (-1)
      = (.ok [[97], [98], [99], [100], [101]], exDb5) := by
  refine ⟨?_, ?_, ?_, by decide, by decide, by decide⟩
  · intro l ex h hl
    have hget : get_ now db k = (some (.list l, ex), db) := by simp [get_, h, hl]
    simp only [lrange, hget, specSlice, specNormStart, specNormStop, pyMax_eq_max,
      pyMin_eq_min]
    by_cases hab : (if i < 0 then max (i + (l.length : Int)) 0 else i) >
        (if j < 0 then min (j + (l.length : Int)) ((l.length : Int) - 1) else j)
    · simp only [if_pos hab]
    · simp only [if_neg hab]
      have hle := le_of_not_lt hab
      have h1 : (if i < 0 then max (i + (l.length : Int)) 0 else i).toNat
          ≤ (if j < 0 then min (j + (l.length : Int)) ((l.length : Int) - 1) else j).toNat + 1 := by
        omega
      rw [islicePy_eq_slice l _ _ h1]
  · intro h
    have hget : get_ now db k = (none, db) := by simp [get_, h]
    simp [lrange, hget]
  · intro v t h hl
    have hget : get_ now db k = (none, dbDelete db k) := by simp [get_, h, hl]
    simp [lrange, hget]

/-- C6 witness: the live-List branch applied to the spec's example list. -/
theorem C6_lrange_witness :
    dbGet exDb5 [107] = some (.list [[97], [98], [99], [100], [101]], none)
  ∧ liveB none 0 = true
  ∧ lrange 0 exDb5 [107] (-100) 2
      = (.ok (specSlice [[97], [98], [99], [100], [101]] (-100) 2), exDb5) := by
  refine ⟨rfl, rfl, ?_⟩
  exact (C6_lrange 0 exDb5 [107] (-100) 2).1 [[97], [98], [99], [100], [101]] none rfl rfl

/-- C10: encoding any byte string of length at most 10000 as a RESP2 bulk
string (`encode_bulk_string`, protocol.py) and decoding the result with the
bulk-string decoder (`read_bulk_string`, parser.py) returns exactly the
original bytes, with the whole encoding consumed — embedded CR, LF and NUL
bytes included, since the payload is length-prefixed. -/
theorem C10_bulk_roundtrip (s : Bytes) (hlen : s.length ≤ 10000)
    (hbytes : ∀ b ∈ s, b < 256) :
    read_bulk_string (encode_bulk_string s) = .data s [] := by
  have h13 : 13 ∉ natDecimal s.length := by
    intro hc
    have h2 := natDecimal_digits hc
    omega
  unfold encode_bulk_string read_bulk_string
  rw [show (36 :: natDecimal s.length ++ [13, 10] ++ s ++ [13, 10] : List Nat)
      = (36 :: natDecimal s.length) ++ 13 :: 10 :: (s ++ [13, 10]) by simp]
  rw [readuntilCRLF_append (s ++ [13, 10]) (by
    intro hc
    rcases List.mem_cons.mp hc with h36 | hmem
    · omega
    · exact h13 hmem)]
  simp only [List.cons_append]
  rw [show (parsePyInt (natDecimal s.length ++ [13, 10])) = some (Int.ofNat s.length) from ?_]
  · rw [if_pos trivial]
    change (if (s ++ [13, 10]).length < s.length then BulkOut.failNone
      else if (List.drop s.length (s ++ [13, 10])).length < 2 then BulkOut.failNone
      else BulkOut.data (List.take s.length (s ++ [13, 10]))
        (List.drop 2 (List.drop s.length (s ++ [13, 10])))) = BulkOut.data s []
    rw [List.take_left' rfl, List.drop_left' rfl]
    have hlen2 : (s ++ [13, 10]).length = s.length + 2 := by simp
    rw [if_neg (by omega)]
    rw [if_neg (by decide)]
    rfl
  · unfold parsePyInt
    rw [stripWS_digits_crlf (natDecimal_ne_nil s.length) (fun x hx => natDecimal_digits hx)]
    obtain ⟨dh, dt, hcons⟩ : ∃ dh dt, natDecimal s.length = dh :: dt := by
      cases hnd : natDecimal s.length with
      | nil => exact absurd hnd (natDecimal_ne_nil s.length)
      | cons dh dt => exact ⟨dh, dt, rfl⟩
    rw [hcons]
    have hdh := natDecimal_digits (hcons ▸ List.mem_cons_self dh dt)
    have h43 : ¬(dh = 43) := by omega
    have h45 : ¬(dh = 45) := by omega
    simp only [h43, h45, if_false, ite_false]
    rw [← hcons, parseDigits_natDecimal]
    rfl

/-- C10 witness: the round trip evaluated on a 4-byte payload containing NUL,
CR and LF. -/
theorem C10_bulk_roundtrip_witness :
    ([0, 13, 10, 65] : Bytes).length ≤ 10000
  ∧ read_bulk_string (encode_bulk_string [0, 13, 10, 65]) = .data [0, 13, 10, 65] [] :=
  ⟨by decide, C10_bulk_roundtrip [0, 13, 10, 65] (by decide) (by decide)⟩

end RedisPy
